import Mathlib

/-!
Verification development for the `model_catalogs` repository
(`model_catalogs/utils.py` and `model_catalogs/model_catalogs.py`).

Strings are modelled as `List Char` (`Str` below).  Timestamps are modelled
as integer hours since the civil epoch 1970-01-01 00:00 (hours suffice: every
time arithmetic in the source is in whole hours).  Fallible Python code is
modelled with `Except PyErr`; each constructor of `PyErr` records the site of
a possible Python exception.
-/

namespace MC

abbrev Str := List Char

/-- Python exception sites relevant to the modelled code.  `noFilesRaise` and
`indexNotFound` are both `ValueError` in Python; they are kept distinct here
because they come from different raise sites (`agg_for_date`'s explicit
`raise` versus `list.index` failing). -/
inductive PyErr where
  | dateParse      -- pandas `to_datetime` failed to find / build a valid date
  | indexErr       -- an `IndexError`-style failure (`findall(...)[0]`, `parts[-2]`, `times[-1]`, `catrefs[0]`)
  | nameErr        -- an unbound local / missing key (`nfiles` for unknown forecast family, FRESH lookup)
  | noFilesRaise   -- the explicit `raise ValueError` in `agg_for_date`
  | indexNotFound  -- `list.index(x)` with `x` absent (also a Python `ValueError`)
  deriving DecidableEq, Repr

instance {ε α : Type} [DecidableEq ε] [DecidableEq α] : DecidableEq (Except ε α) := fun a b =>
  match a, b with
  | .error e, .error f =>
    if h : e = f then .isTrue (by rw [h]) else .isFalse (fun hc => h (Except.error.inj hc))
  | .ok x, .ok y =>
    if h : x = y then .isTrue (by rw [h]) else .isFalse (fun hc => h (Except.ok.inj hc))
  | .error _, .ok _ => .isFalse (fun hc => Except.noConfusion hc)
  | .ok _, .error _ => .isFalse (fun hc => Except.noConfusion hc)

/-- Value of a decimal digit character. -/
def digitVal (c : Char) : Nat := c.toNat - '0'.toNat

/-- All suffixes of a string, longest first. -/
def suffixes : Str → List Str
  | [] => [[]]
  | c :: cs => (c :: cs) :: suffixes cs

/-- Glob matching as done by `fnmatch.fnmatch` on POSIX for the patterns the
source uses (which contain only literals, `*` and `?`): `*` matches any
(possibly empty) run of characters — i.e. the rest of the pattern must match
some suffix — and `?` matches exactly one character.  Structured as
recursion on the pattern so that it evaluates by kernel reduction. -/
def globMatch : Str → Str → Bool
  | [], s => decide (s = [])
  | p :: ps, s =>
    if p = '*' then (suffixes s).any (fun t => globMatch ps t)
    else
      match s with
      | [] => false
      | c :: cs => (decide (p = '?') || decide (p = c)) && globMatch ps cs

/-- Whether `pat` is a prefix of `s` (plain character equality). -/
def isPref : Str → Str → Bool
  | [], _ => true
  | _ :: _, [] => false
  | p :: ps, c :: cs => decide (p = c) && isPref ps cs

/-- Python's `pat in s` substring test. -/
def substr (pat : Str) : Str → Bool
  | [] => isPref pat []
  | c :: cs => isPref pat (c :: cs) || substr pat cs

/-- Python's `s.split(sep)` for a single separator character. -/
def splitOnChar (sep : Char) : Str → List Str
  | [] => [[]]
  | c :: s =>
    if c = sep then [] :: splitOnChar sep s
    else
      match splitOnChar sep s with
      | [] => [[c]]
      | p :: ps => (c :: p) :: ps

/-- Python's `".".join(parts)`. -/
def joinDots : List Str → Str
  | [] => []
  | [p] => p
  | p :: ps => p ++ '.' :: joinDots ps

/-- Models `filename.split('/')[-1]` in `file2dt`: the basename of a path. -/
def basename (s : Str) : Str := (s.reverse.takeWhile (fun c => c ≠ '/')).reverse

/-- Leftmost match of the regex `.t[0-9]{2}z.` (as in `file2dt` /
`get_dates_from_ofs`), returning the two-digit cycle as a number.  The regex
needs one arbitrary character on each side of `t..z`. -/
def findCycleNat : Str → Option Nat
  | _ :: c1 :: c2 :: c3 :: c4 :: c5 :: rest =>
    if c1 = 't' ∧ c2.isDigit ∧ c3.isDigit ∧ c4 = 'z' then
      some (10 * digitVal c2 + digitVal c3)
    else findCycleNat (c1 :: c2 :: c3 :: c4 :: c5 :: rest)
  | _ => none

/-- Leftmost match of the regex `.[n,f][0-9]{3}.` in `file2dt` (note the
character class also admits a comma, exactly as the source writes it),
returning the three-digit lead time. -/
def findLead : Str → Option Nat
  | _ :: c1 :: c2 :: c3 :: c4 :: c5 :: rest =>
    if (c1 = 'n' ∨ c1 = 'f' ∨ c1 = ',') ∧ c2.isDigit ∧ c3.isDigit ∧ c4.isDigit then
      some (100 * digitVal c2 + 10 * digitVal c3 + digitVal c4)
    else findLead (c1 :: c2 :: c3 :: c4 :: c5 :: rest)
  | _ => none

/-! Date parsing: `pd.to_datetime(filename, format="%Y%m%d", exact=False)`.
pandas compiles the format with CPython's `TimeRE` and, for `exact=False`,
takes the leftmost regex match of `(\d\d\d\d)(1[0-2]|0[1-9]|[1-9])(3[01]|[12]\d|0[1-9]|[1-9])`,
then builds the datetime (which rejects an out-of-range day such as Feb 30).
The alternation order and backtracking of the regex engine are reproduced
below. -/

/-- Day-of-month token of the strptime regex: `3[01]|[12]\d|0[1-9]|[1-9]`,
alternatives tried in that order. -/
def matchD : Str → Option Nat
  | a :: b :: _ =>
    if a = '3' ∧ (b = '0' ∨ b = '1') then some (30 + digitVal b)
    else if (a = '1' ∨ a = '2') ∧ b.isDigit then some (10 * digitVal a + digitVal b)
    else if a = '0' ∧ b.isDigit ∧ b ≠ '0' then some (digitVal b)
    else if a.isDigit ∧ a ≠ '0' then some (digitVal a)
    else none
  | [a] => if a.isDigit ∧ a ≠ '0' then some (digitVal a) else none
  | [] => none

/-- Month-then-day part of the strptime regex: month token
`1[0-2]|0[1-9]|[1-9]` followed by the day token, with regex backtracking
(if the two-digit month alternative matches but no day follows, the
one-digit month alternative is tried). -/
def matchMD (s : Str) : Option (Nat × Nat) :=
  let two : Option (Nat × Nat) :=
    match s with
    | a :: b :: rest =>
      let mOpt : Option Nat :=
        if a = '1' ∧ (b = '0' ∨ b = '1' ∨ b = '2') then some (10 + digitVal b)
        else if a = '0' ∧ b.isDigit ∧ b ≠ '0' then some (digitVal b)
        else none
      match mOpt with
      | some mv =>
        match matchD rest with
        | some dv => some (mv, dv)
        | none => none
      | none => none
    | _ => none
  match two with
  | some r => some r
  | none =>
    match s with
    | a :: rest =>
      if a.isDigit ∧ a ≠ '0' then
        match matchD rest with
        | some dv => some (digitVal a, dv)
        | none => none
      else none
    | [] => none

/-- Attempt of the full `%Y%m%d` regex at the current position: exactly four
year digits, then month and day. -/
def matchYmdAt : Str → Option (Nat × Nat × Nat)
  | a :: b :: c :: d :: rest =>
    if a.isDigit ∧ b.isDigit ∧ c.isDigit ∧ d.isDigit then
      let y := 1000 * digitVal a + 100 * digitVal b + 10 * digitVal c + digitVal d
      match matchMD rest with
      | some (mv, dv) => some (y, mv, dv)
      | none => none
    else none
  | _ => none

/-- Leftmost position at which the `%Y%m%d` regex matches (`re.search`
semantics). -/
def searchYmd : Str → Option (Nat × Nat × Nat)
  | [] => none
  | c :: s =>
    match matchYmdAt (c :: s) with
    | some r => some r
    | none => searchYmd s

def isLeap (y : Nat) : Bool := y % 4 = 0 ∧ (y % 100 ≠ 0 ∨ y % 400 = 0)

def daysInMonth (y m : Nat) : Nat :=
  if m = 2 then (if isLeap y then 29 else 28)
  else if m = 4 ∨ m = 6 ∨ m = 9 ∨ m = 11 then 30
  else 31

/-- Models the date extraction of `file2dt`
(`pd.to_datetime(filename, format="%Y%m%d", exact=False)`): regex search,
then datetime construction, which raises on year 0 or an out-of-range day. -/
def findDate (s : Str) : Except PyErr (Nat × Nat × Nat) :=
  match searchYmd s with
  | none => .error .dateParse
  | some (y, m, d) =>
    if 1 ≤ y ∧ d ≤ daysInMonth y m then .ok (y, m, d) else .error .dateParse

/-- Days from the civil epoch 1970-01-01 (Howard Hinnant's civil-calendar
algorithm); defined for `y ≥ 1`, `1 ≤ m ≤ 12`. -/
def rataDie (y m d : Nat) : Int :=
  let yv : Int := if m ≤ 2 then (y : Int) - 1 else (y : Int)
  let era : Int := yv / 400
  let yoe : Int := yv - era * 400
  let mp : Int := if m > 2 then (m : Int) - 3 else (m : Int) + 9
  let doy : Int := (153 * mp + 2) / 5 + (d : Int) - 1
  let doe : Int := yoe * 365 + yoe / 4 - yoe / 100 + doy
  era * 146097 + doe - 719468

/-- Midnight of a calendar day, in hours since the epoch. -/
def hoursOfDate (y m d : Nat) : Int := 24 * rataDie y m d

/-- Result of `file2dt`: pandas returns either a single Timestamp or a Python
list of Timestamps. -/
inductive PyTime where
  | single (t : Int)
  | multi (ts : List Int)
  deriving DecidableEq, Repr

def lsofsStr : Str := "lsofs".data
def loofsStr : Str := "loofs".data
def nyofsStr : Str := "nyofs".data
def nowcastPat : Str := "*.nowcast.*".data
def forecastPat : Str := "*.forecast.*".data
def nPat : Str := "*.n???.*".data
def fPat : Str := "*.f???.*".data
def n000Pat : Str := "*.n000.*".data
def f000Pat : Str := "*.f000.*".data

/-- Model of `file2dt` (utils.py lines 31-96): decode a NOAA OFS filename to
its timestamp(s) without opening the file.  Follows the source line by line:
strip the path, parse the embedded date, extract the 2-digit cycle, then
dispatch on the four filename families; a filename matching none of them
falls through and the bare parsed date is returned. -/
def file2dt (filename : Str) : Except PyErr PyTime :=
  let fn := basename filename
  match findDate fn with
  | .error e => .error e
  | .ok (y, m, d) =>
    let B : Int := hoursOfDate y m d
    match findCycleNat fn with
    | none => .error .indexErr
    | some cycle =>
      if globMatch nowcastPat fn then
        .ok (.multi (((List.range 6).reverse).map (fun dt => B + ((cycle : Int) - (dt : Int)))))
      else if globMatch forecastPat fn then
        if substr lsofsStr fn || substr loofsStr fn then
          .ok (.multi ((List.range 60).map (fun dt => B + ((cycle : Int) + 1 + (dt : Int)))))
        else if substr nyofsStr fn then
          .ok (.multi ((List.range 54).map (fun dt => B + ((cycle : Int) + 1 + (dt : Int)))))
        else .error .nameErr
      else if globMatch nPat fn || globMatch fPat fn then
        match findLead fn with
        | none => .error .indexErr
        | some hour =>
          let dt : Int := (cycle : Int) + (hour : Int) - (if globMatch nPat fn then 6 else 0)
          .ok (.single (B + dt))
      else .ok (.single B)

/-! Aggregation selection: `remove_duplicates`, `find_nowcast_cycles` and
`agg_for_date` (utils.py lines 254-404). -/

/-- Lexicographic strict order on strings by Unicode code point, as Python
compares `str` values. -/
def lexLt : Str → Str → Bool
  | _, [] => false
  | [], _ :: _ => true
  | a :: as_, b :: bs => if a < b then true else if b < a then false else lexLt as_ bs

/-- Stable insertion: place `x` after every element `y` with `lt y x`, hence
before the first element not below it.  `foldr` insertion with this gives
exactly the result of Python's stable `sorted`. -/
def insertByLt (lt : α → α → Bool) (x : α) : List α → List α
  | [] => [x]
  | y :: ys => if lt y x then y :: insertByLt lt x ys else x :: y :: ys

/-- Python's stable `sorted(l, key=...)`, parameterised by the strict
comparison on elements. -/
def pySorted (lt : α → α → Bool) : List α → List α
  | [] => []
  | x :: xs => insertByLt lt x (pySorted lt xs)

/-- `fnmatch.filter(strings, pattern)`. -/
def fnfilter (strings : List Str) (pattern : Str) : List Str :=
  strings.filter (fun s => globMatch pattern s)

/-- `sorted(fnmatch.filter(strings, pattern))`. -/
def sortedFilter (strings : List Str) (pattern : Str) : List Str :=
  pySorted lexLt (fnfilter strings pattern)

/-- Python's `l.pop(l.index(x))`: remove the first occurrence of `x`.  Within
`remove_duplicates` the element is always present, so no error case arises. -/
def removeFirst : List Str → Str → List Str
  | [], _ => []
  | y :: ys, x => if y = x then ys else y :: removeFirst ys x

/-- Model of `remove_duplicates` (utils.py lines 254-279): list the filenames
matching `pattern`, then pop each of them (by first index) from the list. -/
def remove_duplicates (filenames : List Str) (pattern : Str) : List Str :=
  (fnfilter filenames pattern).foldl removeFirst filenames

/-- Key used by `find_nowcast_cycles` to sort: `itemgetter(-2)` of the
filename split on `"."` — the timing-cycle token.  `IndexError` if the split
has fewer than two parts. -/
def cycleKeyOf (parts : List Str) : Except PyErr Str :=
  match parts.reverse with
  | _ :: k :: _ => .ok k
  | _ => .error .indexErr

/-- Compute `itemgetter(-2)` keys for every split filename (Python's `sorted`
computes all keys up front; any failure raises). -/
def decorateKeys : List (List Str) → Except PyErr (List (Str × List Str))
  | [] => .ok []
  | p :: ps =>
    match cycleKeyOf p with
    | .error e => .error e
    | .ok k =>
      match decorateKeys ps with
      | .error e => .error e
      | .ok rest => .ok ((k, p) :: rest)

/-- Model of `find_nowcast_cycles` (utils.py lines 282-313): filter by
pattern, sort lexicographically, split each name on `"."`, stably re-sort by
the second-to-last component (the `tHHz` cycle token), and rejoin with
`"."`. -/
def find_nowcast_cycles (strings : List Str) (pattern : Str) : Except PyErr (List Str) :=
  let filenames := sortedFilter strings pattern
  let splits := filenames.map (splitOnChar '.')
  match decorateKeys splits with
  | .error e => .error e
  | .ok keyed =>
    .ok ((pySorted (fun a b => lexLt a.1 b.1) keyed).map (fun kp => joinDots kp.2))

/-- All matches of the regex `.t[0-9]{2}z.` (non-overlapping, left to right),
keeping the two digit characters, as `agg_for_date` does over the
concatenation `"".join(strings)`. -/
def findallCycleStrs : Str → List Str
  | _ :: c1 :: c2 :: c3 :: c4 :: c5 :: rest =>
    if c1 = 't' ∧ c2.isDigit ∧ c3.isDigit ∧ c4 = 'z' then
      [c2, c3] :: findallCycleStrs rest
    else findallCycleStrs (c1 :: c2 :: c3 :: c4 :: c5 :: rest)
  | _ => []

/-- Deduplication used to model Python's `set(subs)`; the iteration order of
the set does not matter because the result is sorted immediately after. -/
def dedupAux (seen : List Str) : List Str → List Str
  | [] => []
  | x :: xs => if x ∈ seen then dedupAux seen xs else x :: dedupAux (x :: seen) xs

def dedupKeepFirst (l : List Str) : List Str := dedupAux [] l

def countOcc (x : Str) (l : List Str) : Nat := (l.filter (fun y => y = x)).length

/-- Cycle choice of `agg_for_date` (utils.py lines 360-367): unique cycle
tokens in increasing order, stably re-sorted by how often each occurs in
`subs`; the last one (highest count, latest among ties) is the chosen timing
cycle.  `IndexError` if no cycle token occurs at all (`times[-1]` on an empty
list). -/
def selectCycle (strings : List Str) : Except PyErr Str :=
  let subs := findallCycleStrs (strings.foldr (fun a b => a ++ b) [])
  let times := pySorted lexLt (dedupKeepFirst subs)
  match (pySorted (fun a b => countOcc a subs < countOcc b subs) times).getLast? with
  | some cyc => .ok cyc
  | none => .error .indexErr

/-- Python's `s.replace(old, new)`: replace all non-overlapping occurrences,
left to right.  (All uses in the source have a non-empty `old`.)  The fuel
argument of the worker is the length of the remaining string; each step
consumes at least one character, so it never runs out. -/
def replaceAllFuel (old new : Str) : Nat → Str → Str
  | _, [] => []
  | 0, s => s
  | fuel + 1, c :: cs =>
    match old with
    | [] => c :: cs
    | o :: os =>
      if isPref (o :: os) (c :: cs) then
        new ++ replaceAllFuel old new fuel (List.drop os.length cs)
      else c :: replaceAllFuel old new fuel cs

def replaceAll (old new s : Str) : Str := replaceAllFuel old new s.length s

/-- Zero-padded decimal digits of `n`, at least `w` wide (`strftime` padding
for `%Y`, `%m`, `%d`). -/
def padNum (w n : Nat) : Str :=
  List.replicate (w - (Nat.toDigits 10 n).length) '0' ++ Nat.toDigits 10 n

/-- Default day pattern of `agg_for_date`
(`date.strftime(f"*{filetype}*.n*.%Y%m%d.t??z.*")`). -/
def defaultPattern (filetype : Str) (y m d : Nat) : Str :=
  '*' :: filetype ++ "*.n*.".data ++ padNum 4 y ++ padNum 2 m ++ padNum 2 d ++ ".t??z.*".data

/-- Pattern restricted to the chosen timing cycle:
`pattern.replace(".t??z.", ".t{cycle}z.")` followed by the f-string
substitution of `cycle`. -/
def cyclePattern (pattern cyc : Str) : Str :=
  replaceAll (".t??z.".data) (".t".data ++ cyc ++ "z.".data) pattern

/-- Forecast variant of the cycle pattern: `pattern1.replace(".n*.", ".f*.")`. -/
def forePattern (pattern1 : Str) : Str :=
  replaceAll (".n*.".data) (".f*.".data) pattern1

/-- Python's `l.index(x)` as an option. -/
def idxOf (x : Str) : List Str → Option Nat
  | [] => none
  | y :: ys => if y = x then some 0 else (idxOf x ys).map (· + 1)

/-- Model of `agg_for_date` (utils.py lines 316-404).  The `pattern` argument
models the caller-supplied custom pattern after its f-string date
substitution (the source applies `eval` to fill in `date`; only the
`{cycle}` hole introduced by `cyclePattern` remains afterwards).  Dates are
passed as `(y, m, d)`; `astype` only normalises the timestamp type. -/
def resolvedPattern (filetype : Str) (y m d : Nat) : Option Str → Str
  | none => defaultPattern filetype y m d
  | some p => p

def agg_for_date (y m d : Nat) (strings : List Str) (filetype : Str)
    (is_forecast : Bool) (patternArg : Option Str) : Except PyErr (List Str) :=
  let pattern := resolvedPattern filetype y m d patternArg
  if is_forecast then
    match selectCycle strings with
    | .error e => .error e
    | .ok cyc =>
      let pattern1 := cyclePattern pattern cyc
      let fnames0 := pySorted lexLt (fnfilter strings pattern1)
      let fnames_fore := remove_duplicates (pySorted lexLt (fnfilter strings (forePattern pattern1))) f000Pat
      let fnames := fnames0 ++ fnames_fore
      match find_nowcast_cycles strings pattern with
      | .error e => .error e
      | .ok fnames_now =>
        match fnames with
        | [] => .error .noFilesRaise
        | f :: fs =>
          match idxOf f fnames_now with
          | none => .error .indexNotFound
          | some i => .ok (remove_duplicates (fnames_now.take i ++ f :: fs) n000Pat)
  else
    match find_nowcast_cycles strings pattern with
    | .error e => .error e
    | .ok fnames => .ok (remove_duplicates fnames n000Pat)

/-! Catalog tree walking: `find_catrefs` (utils.py lines 407-464).  A remote
thredds catalog is modelled as a finite tree of named catalog references;
`follow()` moves to the child node. -/

/-- A remote catalog node: its `catalog_refs` mapping as an association list
(name, child node). -/
inductive CatNode where
  | mk (refs : List (Str × CatNode))

def CatNode.refs : CatNode → List (Str × CatNode)
  | .mk rs => rs

/-- Names of the catalog references of a node (`list(cat.catalog_refs)`). -/
def refNames (n : CatNode) : List Str := n.refs.map Prod.fst

/-- `cat.catalog_refs[name].follow()`; the name always comes from a previous
listing, so the default empty node for an absent key is unreachable. -/
def lookupRef (n : CatNode) (name : Str) : CatNode :=
  match n.refs.find? (fun p => p.1 = name) with
  | some p => p.2
  | none => .mk []

/-- Python's `str.isnumeric()` for the ASCII directory labels of a thredds
catalog. -/
def isNumericStr (s : Str) : Bool := (s ≠ []) && s.all Char.isDigit

/-- The (year, month) pairs built by the first two levels of `find_catrefs`:
numeric level-0 children, each paired with every one of its children. -/
def catPairs (cat : CatNode) : List (Str × Str) :=
  ((refNames cat).filter isNumericStr).flatMap
    (fun c0 => (refNames (lookupRef cat c0)).map (fun c1 => (c0, c1)))

/-- The probe of `find_catrefs`: number of catalog references under the first
discovered (year, month) path, if any pair was discovered. -/
def probeThirdLevel (cat : CatNode) : Option Nat :=
  match catPairs cat with
  | [] => none
  | (a, b) :: _ => some (refNames (lookupRef (lookupRef cat a) b)).length

/-- Model of `find_catrefs` (utils.py lines 407-464): enumerate numeric
level-0 children, pair each with its children, probe the first pair for a
third level, and descend one more level for every pair exactly when the
probe found more than one reference.  `catrefs[0]` on an empty pair list is
an `IndexError`. -/
def find_catrefs (cat : CatNode) : Except PyErr (List (List Str)) :=
  let pairs := catPairs cat
  match pairs with
  | [] => .error .indexErr
  | (a, b) :: _ =>
    let test := refNames (lookupRef (lookupRef cat a) b)
    if test.length > 1 then
      .ok (pairs.flatMap (fun p =>
        (refNames (lookupRef (lookupRef cat p.1) p.2)).map (fun c2 => [p.1, p.2, c2])))
    else
      .ok (pairs.map (fun p => [p.1, p.2]))

/-! Freshness cache: `get_fresh_parameter` and `is_fresh`
(utils.py lines 99-160).  Times are integer timestamps; the filesystem is a
partial map from (cache directory, file name) to the file's modification
time.  The `mc.FRESH` table lives in the package `__init__`, which is not
part of the source tree here. -/

/-- Which cache directory a key's `filename.parent` is. -/
inductive CacheDir where
  | availability | fileLocs | compiled | other
  deriving DecidableEq, Repr

/-- Artifact kinds looked up in the `FRESH` table for per-timing entries. -/
inductive FreshKind where
  | start | endKind | catrefs | fileLocs
  deriving DecidableEq, Repr

/-- Modelled from the spec: the `mc.FRESH` time-to-live table configured in
the package `__init__` (absent from the given sources).  Per the spec, each
artifact kind maps to an independently configured time-to-live;
`perTiming timing kind = none` models a `KeyError` for an unknown timing or
kind, and `compiledTtl` is the separate `FRESH["compiled"]` entry. -/
structure FreshTable where
  perTiming : Str → FreshKind → Option Int
  compiledTtl : Option Int

/-- Model of `get_fresh_parameter` (utils.py lines 99-133): derive the
artifact kind structurally from the key (cache directory and file name) and
look up its time-to-live.  `none` models the exceptions the source can raise
on a key outside the three known categories (unbound `mu` / `KeyError` /
`IndexError` from `split("_")[1]`). -/
def get_fresh_parameter (tbl : FreshTable) (dir : CacheDir) (name : Str) : Option Int :=
  match dir with
  | .availability =>
    match (splitOnChar '_' name).get? 1 with
    | none => none
    | some timing =>
      if substr ("start".data) name then tbl.perTiming timing .start
      else if substr ("end".data) name then tbl.perTiming timing .endKind
      else if substr ("catrefs".data) name then tbl.perTiming timing .catrefs
      else none
  | .fileLocs =>
    match (splitOnChar '_' name).get? 1 with
    | none => none
    | some timing => tbl.perTiming timing .fileLocs
  | .compiled => tbl.compiledTtl
  | .other => none

/-- Filesystem substrate for the cache: modification time per key, `none`
when the file does not exist. -/
structure CacheFS where
  mtime : CacheDir → Str → Option Int

/-- Writing a cache record at time `t` (the only way records appear). -/
def CacheFS.write (fs : CacheFS) (dir : CacheDir) (name : Str) (t : Int) : CacheFS :=
  ⟨fun d n => if d = dir ∧ n = name then some t else fs.mtime d n⟩

/-- Model of `is_fresh` (utils.py lines 136-160): a missing file's
`FileNotFoundError` is caught and yields `False`; otherwise freshness is the
strict comparison `now - filetime < ttl`.  A key outside the known
categories propagates its exception (`error`), exactly as the source's
`except FileNotFoundError` would not catch it. -/
def is_fresh (tbl : FreshTable) (fs : CacheFS) (now : Int) (dir : CacheDir) (name : Str) :
    Except PyErr Bool :=
  match fs.mtime dir name with
  | none => .ok false
  | some filetime =>
    match get_fresh_parameter tbl dir name with
    | none => .error .nameErr
    | some mu => .ok (decide (now - filetime < mu))

/-! Availability start bound: the aggregating branch of `find_datetimes`
(model_catalogs.py lines 276-304).  `mc.filedates2df` lives outside the
given sources; per its call-site comment and the spec it produces a frame
indexed by the decoded file timestamps, sorted and deduplicated.  The gap
logic below takes that index (a list of timestamps in hours) as input. -/

/-- The timestamps following a jump of more than one day, in order: models
`ddf = pd.Series(df.index).diff() > pd.Timedelta("1 day")` followed by
`df.index.where(ddf).dropna()`. -/
def gapDates : List Int → List Int
  | a :: b :: rest => (if b - a > 24 then [b] else []) ++ gapDates (b :: rest)
  | _ => []

/-- No pair of consecutive dates is more than one day apart. -/
def noGaps : List Int → Bool
  | a :: b :: rest => decide (b - a ≤ 24) && noGaps (b :: rest)
  | _ => true

/-- Model of the start-bound computation in `find_datetimes`
(model_catalogs.py lines 292-302) on the decoded, sorted date index: if any
consecutive difference exceeds one day, the start is the last date where
that happens (the first date after the most recent gap); otherwise the
earliest date.  `df.index[0]` on an empty index is an `IndexError`. -/
def find_start_datetime (dates : List Int) : Except PyErr Int :=
  match dates with
  | [] => .error .indexErr
  | d :: ds =>
    match (gapDates (d :: ds)).getLast? with
    | some t => .ok t
    | none => .ok d

/-! Date-range resolution: the `end_date_loop` / forecast-tail logic of
`select_date_range` (model_catalogs.py lines 628-646 and 706-715).  Dates
are hours since the epoch; `date()` of a timestamp is modelled by `/ 24`
(all concrete timestamps here are non-negative). -/

/-- Outcome of the `end_date_loop` if-chain: the loop's final timestamp, the
effective `use_forecast_files` flag, and `end_date_sel` (which one branch
overwrites with `None`). -/
structure LoopSetup where
  endDateLoop : Nat
  useForecastFiles : Bool
  endDateSel : Option Nat
  deriving DecidableEq, Repr

/-- Model of model_catalogs.py lines 628-646: set `end_date_loop` from
`end_date` relative to today, forcing the forecast tail for open-ended or
future or today's `end_date`, extending one day past a past `end_date`, and
— only when the caller passed `use_forecast_files=True` for a past
`end_date` — anchoring the loop at `end_date` itself and clearing
`end_date_sel`. -/
def setupLoopBounds (endDate : Option Nat) (today : Nat) (useForecastFiles : Bool)
    (endDateSel : Option Nat) : LoopSetup :=
  match endDate with
  | none => ⟨today, true, endDateSel⟩
  | some e =>
    if e / 24 > today / 24 then ⟨today, true, endDateSel⟩
    else if e / 24 < today / 24 then
      if useForecastFiles then ⟨e, true, none⟩
      else ⟨e + 24, useForecastFiles, endDateSel⟩
    else ⟨e, true, endDateSel⟩

/-- The calendar days visited by the aggregation loop:
`pd.date_range(start=start_date.normalize(), end=end_date_loop, freq="1D")`,
as day numbers. -/
def loopDays (startDate endDateLoop : Nat) : List Nat :=
  (List.range (endDateLoop / 24 + 1 - startDate / 24)).map (fun i => startDate / 24 + i)

/-- Whether a loop day requests the forecast tail (model_catalogs.py lines
711-715): only the last loop day, and only when forecast files are in
use. -/
def isForecastDay (day : Nat) (endDateLoop : Nat) (useForecastFiles : Bool) : Bool :=
  (day == endDateLoop / 24) && useForecastFiles

/-! Helper lemmas about `remove_duplicates`. -/

theorem foldl_removeFirst_cons (P : Str → Bool) :
    ∀ (M : List Str) (x : Str) (l : List Str), (∀ m ∈ M, P m = true) → P x = false →
      M.foldl removeFirst (x :: l) = x :: M.foldl removeFirst l := by
  intro M
  induction M with
  | nil => intro x l _ _; rfl
  | cons m M ih =>
    intro x l hM hx
    have hm : P m = true := hM m (List.mem_cons_self m M)
    have hne : x ≠ m := by intro he; rw [he, hm] at hx; cases hx
    have hstep : removeFirst (x :: l) m = x :: removeFirst l m := by
      simp [removeFirst, hne]
    calc (m :: M).foldl removeFirst (x :: l)
        = M.foldl removeFirst (removeFirst (x :: l) m) := rfl
      _ = M.foldl removeFirst (x :: removeFirst l m) := by rw [hstep]
      _ = x :: M.foldl removeFirst (removeFirst l m) := by
            exact ih x (removeFirst l m) (fun a ha => hM a (List.mem_cons_of_mem m ha)) hx
      _ = x :: (m :: M).foldl removeFirst l := rfl

theorem foldl_removeFirst_filter (P : Str → Bool) :
    ∀ l : List Str, (l.filter P).foldl removeFirst l = l.filter (fun x => !P x) := by
  intro l
  induction l with
  | nil => rfl
  | cons x l ih =>
    by_cases hx : P x = true
    · have h1 : (x :: l).filter P = x :: l.filter P := by simp [List.filter_cons, hx]
      have h2 : removeFirst (x :: l) x = l := by simp [removeFirst]
      calc ((x :: l).filter P).foldl removeFirst (x :: l)
          = (l.filter P).foldl removeFirst (removeFirst (x :: l) x) := by rw [h1]; rfl
        _ = (l.filter P).foldl removeFirst l := by rw [h2]
        _ = l.filter (fun a => !P a) := ih
        _ = (x :: l).filter (fun a => !P a) := by simp [List.filter_cons, hx]
    · have hx' : P x = false := by revert hx; cases P x <;> simp
      have h1 : (x :: l).filter P = l.filter P := by simp [List.filter_cons, hx']
      calc ((x :: l).filter P).foldl removeFirst (x :: l)
          = (l.filter P).foldl removeFirst (x :: l) := by rw [h1]
        _ = x :: (l.filter P).foldl removeFirst l := by
              exact foldl_removeFirst_cons P (l.filter P) x l
                (fun m hm => (List.mem_filter.mp hm).2) hx'
        _ = x :: l.filter (fun a => !P a) := by rw [ih]
        _ = (x :: l).filter (fun a => !P a) := by simp [List.filter_cons, hx']

/-- The source's `remove_duplicates` is exactly a filter: it removes every
filename matching the pattern and keeps the rest in order. -/
theorem remove_duplicates_eq_filter (l : List Str) (p : Str) :
    remove_duplicates l p = l.filter (fun f => !globMatch p f) :=
  foldl_removeFirst_filter (fun f => globMatch p f) l

theorem not_match_of_mem_remove_duplicates {u : Str} {l : List Str} {p : Str}
    (h : u ∈ remove_duplicates l p) : globMatch p u = false := by
  rw [remove_duplicates_eq_filter] at h
  have := (List.mem_filter.mp h).2
  revert this; cases globMatch p u <;> simp

/-- C3: For every date, candidate URL list, filetype, forecast-tail flag, and
pattern, no URL in the list returned by the day selector (`agg_for_date`)
matches the nowcast lead-time-zero pattern `*.n000.*`; this holds in both
the forecast-tail branch and the nowcast-only branch. -/
theorem agg_for_date_no_n000 (y m d : Nat) (strings : List Str) (filetype : Str)
    (is_forecast : Bool) (patternArg : Option Str) (out : List Str)
    (hok : agg_for_date y m d strings filetype is_forecast patternArg = .ok out) :
    ∀ u ∈ out, globMatch n000Pat u = false := by
  intro u hu
  unfold agg_for_date at hok
  simp only [] at hok
  repeat' split at hok
  all_goals try cases hok
  all_goals exact not_match_of_mem_remove_duplicates hu

/-! Concrete NOAA OFS filenames used to instantiate the theorems. -/

def fieldsStr : Str := "fields".data
def fnameN000 : Str := "nos.cbofs.fields.n000.20220701.t00z.nc".data
def fnameN001 : Str := "nos.cbofs.fields.n001.20220701.t00z.nc".data
def fnameF001 : Str := "nos.cbofs.fields.f001.20220701.t00z.nc".data
def fnameN001Jun30 : Str := "nos.cbofs.fields.n001.20220630.t00z.nc".data
def cyc00 : Str := ['0', '0']

/-- Witness for C3: a candidate list containing an `*.n000.*` file; after
selection the output contains only the `n001` file, which does not match
`*.n000.*`. -/
theorem agg_for_date_no_n000_witness :
    agg_for_date 2022 7 1 [fnameN000, fnameN001] fieldsStr false none = .ok [fnameN001] ∧
    globMatch n000Pat fnameN001 = false :=
  ⟨by decide,
   agg_for_date_no_n000 2022 7 1 [fnameN000, fnameN001] fieldsStr false none
     [fnameN001] (by decide) fnameN001 (by simp)⟩

/-- Counterexample for C2 as stated: with `is_forecast = True`, a candidate
list holding one nowcast file of the selected cycle and no forecast file at
all (the forecast filter is empty) does not raise — `agg_for_date` returns
the nowcast-only list. -/
theorem agg_for_date_empty_forecast_no_raise :
    selectCycle [fnameN001] = .ok cyc00 ∧
    fnfilter [fnameN001]
      (forePattern (cyclePattern (defaultPattern fieldsStr 2022 7 1) cyc00)) = [] ∧
    agg_for_date 2022 7 1 [fnameN001] fieldsStr true none = .ok [fnameN001] :=
  ⟨by decide, by decide, by decide⟩

/-- C2 (amended): with the forecast tail requested, the selection error is
raised exactly at the source's `len(fnames) == 0` check — i.e. when, for the
selected cycle, the nowcast filter and the deduplicated forecast filter are
both empty (and the preceding cycle selection and nowcast-cycle scan did not
themselves raise). -/
theorem agg_for_date_raises_when_no_cycle_files (y m d : Nat) (strings : List Str)
    (filetype : Str) (patternArg : Option Str) (cyc : Str) (L : List Str)
    (hcyc : selectCycle strings = .ok cyc)
    (hn : fnfilter strings
      (cyclePattern (resolvedPattern filetype y m d patternArg) cyc) = [])
    (hf : remove_duplicates (pySorted lexLt (fnfilter strings
      (forePattern (cyclePattern (resolvedPattern filetype y m d patternArg) cyc))))
      f000Pat = [])
    (hnow : find_nowcast_cycles strings (resolvedPattern filetype y m d patternArg) = .ok L) :
    agg_for_date y m d strings filetype true patternArg = .error .noFilesRaise := by
  unfold agg_for_date
  rw [if_pos rfl, hcyc]
  simp only [hn, hf, hnow]
  rfl

/-- Witness for the amended C2: a candidate list whose only file is for the
previous day — cycle selection succeeds, both day filters are empty, and the
selection error is raised. -/
theorem agg_for_date_raises_when_no_cycle_files_witness :
    selectCycle [fnameN001Jun30] = .ok cyc00 ∧
    agg_for_date 2022 7 1 [fnameN001Jun30] fieldsStr true none = .error .noFilesRaise :=
  ⟨by decide,
   agg_for_date_raises_when_no_cycle_files 2022 7 1 [fnameN001Jun30] fieldsStr none
     cyc00 [] (by decide) (by decide) (by decide) (by decide)⟩

/-- C10: with the forecast tail requested, if the selected cycle has no
nowcast file matching the day pattern but at least one forecast file after
`f000` deduplication, the combined list starts with that forecast file; when
it is absent from the nowcast-cycle list, the prepend step's `list.index`
lookup raises an (unhandled) `ValueError` — not the documented selection
error and not a result list. -/
theorem agg_for_date_index_error_on_forecast_head (y m d : Nat) (strings : List Str)
    (filetype : Str) (patternArg : Option Str) (cyc f : Str) (fs now : List Str)
    (hcyc : selectCycle strings = .ok cyc)
    (hn : fnfilter strings
      (cyclePattern (resolvedPattern filetype y m d patternArg) cyc) = [])
    (hf : remove_duplicates (pySorted lexLt (fnfilter strings
      (forePattern (cyclePattern (resolvedPattern filetype y m d patternArg) cyc))))
      f000Pat = f :: fs)
    (hnow : find_nowcast_cycles strings (resolvedPattern filetype y m d patternArg) = .ok now)
    (hidx : idxOf f now = none) :
    agg_for_date y m d strings filetype true patternArg = .error .indexNotFound := by
  unfold agg_for_date
  rw [if_pos rfl, hcyc]
  simp only [hn, hf, hnow]
  simp only [pySorted, List.nil_append, hidx]

/-- C1 (amended): for a filename whose basename yields a parsed date, a
parsed cycle, and a parsed lead time, matches the single-timestep patterns
`*.n???.*` or `*.f???.*`, and matches neither multi-timestep family
(`*.nowcast.*`, `*.forecast.*`, which the source checks first), `file2dt`
returns exactly one timestamp: the parsed date plus `cycle + lead` hours,
minus a further 6 hours for the nowcast form. -/
theorem file2dt_single_timestep (filename : Str) (y m d c lead : Nat)
    (hdate : findDate (basename filename) = .ok (y, m, d))
    (hcyc : findCycleNat (basename filename) = some c)
    (hnw : globMatch nowcastPat (basename filename) = false)
    (hfc : globMatch forecastPat (basename filename) = false)
    (hone : (globMatch nPat (basename filename) || globMatch fPat (basename filename)) = true)
    (hlead : findLead (basename filename) = some lead) :
    file2dt filename = .ok (.single (hoursOfDate y m d +
      ((c : Int) + (lead : Int) -
        (if globMatch nPat (basename filename) then 6 else 0)))) := by
  unfold file2dt
  simp only [hdate, hcyc, hnw, hfc, hone, hlead, Bool.false_eq_true, if_false, if_true]

/-- Witness for C1 (amended): the spec's scenario filename
`nos.cbofs.fields.n003.20220701.t00z.nc` decodes to a single timestamp,
2022-06-30 21:00 — the calendar day before the embedded date. -/
theorem file2dt_single_timestep_witness :
    file2dt ("nos.cbofs.fields.n003.20220701.t00z.nc".data) =
      .ok (.single (hoursOfDate 2022 6 30 + 21)) := by
  have hres := file2dt_single_timestep ("nos.cbofs.fields.n003.20220701.t00z.nc".data)
    2022 7 1 0 3 (by decide) (by decide) (by decide) (by decide) (by decide) (by decide)
  rw [hres]
  decide

/-- Counterexample for C1 as stated: a filename containing all three tokens
(an 8-digit date, a `.tHHz.` cycle, a 3-digit `.n###.` lead time) that also
contains the `.nowcast.` tag decodes to six timestamps, not to exactly
one. -/
theorem file2dt_lead_token_multi_counterexample :
    substr (".n003.".data) ("nos.nowcast.fields.n003.20220701.t00z.nc".data) = true ∧
    substr (".t00z.".data) ("nos.nowcast.fields.n003.20220701.t00z.nc".data) = true ∧
    substr ("20220701".data) ("nos.nowcast.fields.n003.20220701.t00z.nc".data) = true ∧
    file2dt ("nos.nowcast.fields.n003.20220701.t00z.nc".data) =
      .ok (.multi [460171, 460172, 460173, 460174, 460175, 460176]) :=
  ⟨by decide, by decide, by decide, by decide⟩

/-- C4 (amended): a filename with a parseable date token and a cycle token
that matches none of the four families does not fail — `file2dt` falls
through all branches and returns the bare parsed date (midnight) as a
single timestamp. -/
theorem file2dt_unmatched_returns_date (filename : Str) (y m d c : Nat)
    (hdate : findDate (basename filename) = .ok (y, m, d))
    (hcyc : findCycleNat (basename filename) = some c)
    (h1 : globMatch nowcastPat (basename filename) = false)
    (h2 : globMatch forecastPat (basename filename) = false)
    (h3 : globMatch nPat (basename filename) = false)
    (h4 : globMatch fPat (basename filename) = false) :
    file2dt filename = .ok (.single (hoursOfDate y m d)) := by
  unfold file2dt
  simp only [hdate, hcyc, h1, h2, h3, h4, Bool.false_eq_true, if_false, Bool.or_self]

/-- Witness for C4 (amended): the family-less filename below returns
midnight of its embedded date. -/
theorem file2dt_unmatched_returns_date_witness :
    file2dt ("nos.nyofs.fields.20220701.t00z.nc".data) =
      .ok (.single (hoursOfDate 2022 7 1)) :=
  file2dt_unmatched_returns_date ("nos.nyofs.fields.20220701.t00z.nc".data)
    2022 7 1 0 (by decide) (by decide) (by decide) (by decide) (by decide) (by decide)

/-- Counterexample for C4 as stated: a filename with a parseable date token
and a cycle token matching none of the four filename families, on which
decoding succeeds (returning the midnight timestamp) instead of failing
with a malformed-filename error. -/
theorem file2dt_unmatched_no_error_counterexample :
    findDate (basename ("nos.nyofs.fields.20220701.t00z.nc".data)) = .ok (2022, 7, 1) ∧
    findCycleNat (basename ("nos.nyofs.fields.20220701.t00z.nc".data)) = some 0 ∧
    globMatch nowcastPat ("nos.nyofs.fields.20220701.t00z.nc".data) = false ∧
    globMatch forecastPat ("nos.nyofs.fields.20220701.t00z.nc".data) = false ∧
    globMatch nPat ("nos.nyofs.fields.20220701.t00z.nc".data) = false ∧
    globMatch fPat ("nos.nyofs.fields.20220701.t00z.nc".data) = false ∧
    file2dt ("nos.nyofs.fields.20220701.t00z.nc".data) = .ok (.single 460176) :=
  ⟨by decide, by decide, by decide, by decide, by decide, by decide, by decide⟩

/-- C8: the multi-timestep families.  A `*.nowcast.*` filename decodes to
exactly six hourly timestamps ascending from `cycle - 5` to `cycle` relative
to the parsed date; a `*.forecast.*` filename decodes to 60 hourly
timestamps starting at `cycle + 1` for the lsofs/loofs families and 54 for
nyofs; a `*.forecast.*` filename of any other family fails (the source's
`nfiles` is never assigned) rather than silently defaulting. -/
theorem file2dt_multi_families (filename : Str) (y m d c : Nat)
    (hdate : findDate (basename filename) = .ok (y, m, d))
    (hcyc : findCycleNat (basename filename) = some c) :
    (globMatch nowcastPat (basename filename) = true →
      file2dt filename = .ok (.multi
        [hoursOfDate y m d + ((c : Int) - 5), hoursOfDate y m d + ((c : Int) - 4),
         hoursOfDate y m d + ((c : Int) - 3), hoursOfDate y m d + ((c : Int) - 2),
         hoursOfDate y m d + ((c : Int) - 1), hoursOfDate y m d + ((c : Int) - 0)]))
    ∧ (globMatch nowcastPat (basename filename) = false →
       globMatch forecastPat (basename filename) = true →
       (substr lsofsStr (basename filename) || substr loofsStr (basename filename)) = true →
      file2dt filename = .ok (.multi
        ((List.range 60).map (fun dt => hoursOfDate y m d + ((c : Int) + 1 + (dt : Int))))))
    ∧ (globMatch nowcastPat (basename filename) = false →
       globMatch forecastPat (basename filename) = true →
       (substr lsofsStr (basename filename) || substr loofsStr (basename filename)) = false →
       substr nyofsStr (basename filename) = true →
      file2dt filename = .ok (.multi
        ((List.range 54).map (fun dt => hoursOfDate y m d + ((c : Int) + 1 + (dt : Int))))))
    ∧ (globMatch nowcastPat (basename filename) = false →
       globMatch forecastPat (basename filename) = true →
       (substr lsofsStr (basename filename) || substr loofsStr (basename filename)) = false →
       substr nyofsStr (basename filename) = false →
      file2dt filename = .error .nameErr) := by
  refine ⟨fun hnw => ?_, fun hnw hfc hls => ?_, fun hnw hfc hls hny => ?_,
    fun hnw hfc hls hny => ?_⟩
  · unfold file2dt
    simp only [hdate, hcyc, hnw, if_true]
    rfl
  · unfold file2dt
    simp only [hdate, hcyc, hnw, hfc, hls, Bool.false_eq_true, if_false, if_true]
  · unfold file2dt
    simp only [hdate, hcyc, hnw, hfc, hls, hny, Bool.false_eq_true, if_false, if_true]
  · unfold file2dt
    simp only [hdate, hcyc, hnw, hfc, hls, hny, Bool.false_eq_true, if_false]
    simp

/-- Witness for C8: one concrete filename per family — an lsofs nowcast file
(6 ascending hourly steps), an lsofs forecast file (60 steps), an nyofs
forecast file (54 steps), and a cbofs forecast file (loud failure). -/
theorem file2dt_multi_families_witness :
    file2dt ("glofs.lsofs.nowcast.20220701.t06z.nc".data) =
      .ok (.multi [460177, 460178, 460179, 460180, 460181, 460182]) ∧
    file2dt ("glofs.lsofs.forecast.20220701.t06z.nc".data) =
      .ok (.multi ((List.range 60).map (fun dt => hoursOfDate 2022 7 1 + ((6 : Int) + 1 + (dt : Int))))) ∧
    file2dt ("nos.nyofs.forecast.20220701.t06z.nc".data) =
      .ok (.multi ((List.range 54).map (fun dt => hoursOfDate 2022 7 1 + ((6 : Int) + 1 + (dt : Int))))) ∧
    file2dt ("nos.cbofs.forecast.20220701.t06z.nc".data) = .error .nameErr := by
  refine ⟨?_, ?_, ?_, ?_⟩
  · have hres := (file2dt_multi_families ("glofs.lsofs.nowcast.20220701.t06z.nc".data)
      2022 7 1 6 (by decide) (by decide)).1 (by decide)
    rw [hres]; decide
  · exact (file2dt_multi_families ("glofs.lsofs.forecast.20220701.t06z.nc".data)
      2022 7 1 6 (by decide) (by decide)).2.1 (by decide) (by decide) (by decide)
  · exact (file2dt_multi_families ("nos.nyofs.forecast.20220701.t06z.nc".data)
      2022 7 1 6 (by decide) (by decide)).2.2.1 (by decide) (by decide) (by decide) (by decide)
  · exact (file2dt_multi_families ("nos.cbofs.forecast.20220701.t06z.nc".data)
      2022 7 1 6 (by decide) (by decide)).2.2.2 (by decide) (by decide) (by decide) (by decide)

/-- Witness for C10: a candidate list holding only a forecast file; the
nowcast filter is empty, the forecast head is absent from the (empty)
nowcast-cycle list, and the call fails with the `list.index` error. -/
theorem agg_for_date_index_error_witness :
    remove_duplicates (pySorted lexLt (fnfilter [fnameF001]
      (forePattern (cyclePattern (resolvedPattern fieldsStr 2022 7 1 none) cyc00))))
      f000Pat = [fnameF001] ∧
    agg_for_date 2022 7 1 [fnameF001] fieldsStr true none = .error .indexNotFound :=
  ⟨by decide,
   agg_for_date_index_error_on_forecast_head 2022 7 1 [fnameF001] fieldsStr none
     cyc00 fnameF001 [] [] (by decide) (by decide) (by decide) (by decide) (by decide)⟩

/-! Lemmas for the availability start bound (C5). -/

theorem getLast?_append_right {α : Type} {l₂ : List α} {x : α} (l₁ : List α)
    (h : l₂.getLast? = some x) : (l₁ ++ l₂).getLast? = some x := by
  have hne : l₂ ≠ [] := by intro he; rw [he] at h; cases h
  rw [List.getLast?_append_of_ne_nil l₁ hne, h]

theorem gapDates_eq_nil_of_noGaps : ∀ l : List Int, noGaps l = true → gapDates l = [] := by
  intro l
  induction l with
  | nil => intro _; rfl
  | cons a l ih =>
    cases l with
    | nil => intro _; rfl
    | cons b rest =>
      intro h
      unfold noGaps at h
      rw [Bool.and_eq_true] at h
      obtain ⟨h1, h2⟩ := h
      have hle : b - a ≤ 24 := of_decide_eq_true h1
      unfold gapDates
      rw [if_neg (by omega), ih h2]
      rfl

theorem gapDates_getLast_of_gap :
    ∀ (l : List Int) (q t : Int) (post : List Int), t - q > 24 →
      gapDates (t :: post) = [] →
      (gapDates (l ++ q :: t :: post)).getLast? = some t := by
  intro l
  induction l with
  | nil =>
    intro q t post hgap hnil
    show (gapDates (q :: t :: post)).getLast? = some t
    unfold gapDates
    rw [if_pos hgap, hnil]
    rfl
  | cons x l ih =>
    intro q t post hgap hnil
    have htail := ih q t post hgap hnil
    cases hl : l ++ q :: t :: post with
    | nil => exact absurd (List.append_eq_nil.mp hl).2 (by simp)
    | cons b rest =>
      show (gapDates (x :: (l ++ q :: t :: post))).getLast? = some t
      rw [hl]
      unfold gapDates
      rw [← hl]
      exact getLast?_append_right _ htail

/-- C5: characterisation of the start bound computed by `find_datetimes` on
the decoded file dates.  If no consecutive difference exceeds one day, the
start is the earliest date; and whenever the date list decomposes around a
gap of more than one day followed by a gap-free tail, the start is exactly
the first date after that (most recent) gap. -/
theorem find_start_after_last_gap (d : Int) (ds : List Int) :
    (gapDates (d :: ds) = [] → find_start_datetime (d :: ds) = .ok d) ∧
    (∀ pre q t post, d :: ds = pre ++ q :: t :: post → t - q > 24 →
      noGaps (t :: post) = true → find_start_datetime (d :: ds) = .ok t) := by
  constructor
  · intro h
    simp [find_start_datetime, h]
  · intro pre q t post hsplit hgap hng
    have hnil := gapDates_eq_nil_of_noGaps (t :: post) hng
    have hlast := gapDates_getLast_of_gap pre q t post hgap hnil
    simp only [find_start_datetime]
    rw [hsplit, hlast]

/-- Witness for C5: the spec scenario — a file-date list with a multi-day
gap after the first day; the returned start is the date immediately after
the gap (2022-07-02), not the earliest date (2022-06-28). -/
theorem find_start_after_last_gap_witness :
    hoursOfDate 2022 7 2 - hoursOfDate 2022 6 28 > 24 ∧
    noGaps [hoursOfDate 2022 7 2, hoursOfDate 2022 7 3] = true ∧
    find_start_datetime [hoursOfDate 2022 6 28, hoursOfDate 2022 7 2, hoursOfDate 2022 7 3] =
      .ok (hoursOfDate 2022 7 2) :=
  ⟨by decide, by decide,
   (find_start_after_last_gap (hoursOfDate 2022 6 28)
      [hoursOfDate 2022 7 2, hoursOfDate 2022 7 3]).2
     [] (hoursOfDate 2022 6 28) (hoursOfDate 2022 7 2) [hoursOfDate 2022 7 3]
     rfl (by decide) (by decide)⟩

/-! Lemmas for the date-range end logic (C6). -/

theorem loopDays_getLast (s L : Nat) (h : s / 24 ≤ L / 24) :
    (loopDays s L).getLast? = some (L / 24) := by
  unfold loopDays
  have hn : L / 24 + 1 - s / 24 = (L / 24 - s / 24) + 1 := by omega
  rw [hn, List.range_succ, List.map_append]
  have : (List.map (fun i => s / 24 + i) [L / 24 - s / 24]).getLast? =
      some (s / 24 + (L / 24 - s / 24)) := rfl
  rw [getLast?_append_right _ this]
  congr 1
  omega

theorem mem_loopDays_iff (s L day : Nat) (h : s / 24 ≤ L / 24) :
    day ∈ loopDays s L ↔ s / 24 ≤ day ∧ day ≤ L / 24 := by
  unfold loopDays
  simp only [List.mem_map, List.mem_range]
  constructor
  · rintro ⟨i, hi, rfl⟩; omega
  · rintro ⟨h1, h2⟩; exact ⟨day - s / 24, by omega, by omega⟩

/-- C6: in `select_date_range`, for an `end_date` strictly before today:
without `use_forecast_files` the day loop extends exactly one calendar day
past `end_date` and no loop day requests the forecast tail; with
`use_forecast_files=True` the loop ends at `end_date` itself, the forecast
tail is requested exactly on `end_date`'s day (which the loop visits), and
the end-side selection bound is cleared to `None`. -/
theorem select_range_past_end (s e today : Nat) (sel : Option Nat)
    (h1 : e / 24 < today / 24) (h2 : s / 24 ≤ e / 24) :
    (setupLoopBounds (some e) today false sel = ⟨e + 24, false, sel⟩ ∧
     (loopDays s (e + 24)).getLast? = some (e / 24 + 1) ∧
     ∀ day ∈ loopDays s (e + 24), isForecastDay day (e + 24) false = false) ∧
    (setupLoopBounds (some e) today true sel = ⟨e, true, none⟩ ∧
     (loopDays s e).getLast? = some (e / 24) ∧
     e / 24 ∈ loopDays s e ∧
     ∀ day, isForecastDay day e true = true ↔ day = e / 24) := by
  have hdiv : (e + 24) / 24 = e / 24 + 1 := by
    rw [Nat.add_div_right _ (by norm_num)]
  have hgt : ¬ e / 24 > today / 24 := by omega
  refine ⟨⟨?_, ?_, ?_⟩, ⟨?_, ?_, ?_, ?_⟩⟩
  · simp only [setupLoopBounds]
    rw [if_neg hgt, if_pos h1]
    rfl
  · rw [loopDays_getLast s (e + 24) (by omega), hdiv]
  · intro day _
    simp [isForecastDay]
  · simp only [setupLoopBounds]
    rw [if_neg hgt, if_pos h1]
    rfl
  · exact loopDays_getLast s e h2
  · exact (mem_loopDays_iff s e (e / 24) h2).mpr ⟨h2, le_refl _⟩
  · intro day
    simp [isForecastDay]

/-- Witness for C6: concrete hours — start 1970-01-01 00:00, end_date
1970-01-02 00:00, today 1970-01-06 00:00. -/
theorem select_range_past_end_witness :
    setupLoopBounds (some 24) 120 false (some 5) = ⟨48, false, some 5⟩ ∧
    setupLoopBounds (some 24) 120 true (some 5) = ⟨24, true, none⟩ :=
  ⟨((select_range_past_end 0 24 120 (some 5) (by decide) (by decide)).1).1,
   ((select_range_past_end 0 24 120 (some 5) (by decide) (by decide)).2).1⟩

/-- C7 (amended): whenever `find_catrefs` returns, the probe of the first
discovered (year, month) path is defined, and the walker descends to a
third level exactly when that probe found more than one reference — all
returned tuples have length 3 in that case and length 2 otherwise; no
returned list mixes lengths. -/
theorem find_catrefs_uniform_depth (cat : CatNode) (out : List (List Str)) (k : Nat)
    (hok : find_catrefs cat = .ok out) (hprobe : probeThirdLevel cat = some k) :
    (1 < k → ∀ r ∈ out, r.length = 3) ∧ (k ≤ 1 → ∀ r ∈ out, r.length = 2) := by
  unfold find_catrefs at hok
  unfold probeThirdLevel at hprobe
  cases hpairs : catPairs cat with
  | nil => rw [hpairs] at hok; cases hok
  | cons p rest =>
    rw [hpairs] at hok hprobe
    obtain ⟨a, b⟩ := p
    simp only at hok hprobe
    injection hprobe with hk
    by_cases hlen : (refNames (lookupRef (lookupRef cat a) b)).length > 1
    · rw [if_pos hlen] at hok
      injection hok with hout
      constructor
      · intro _ r hr
        rw [← hout] at hr
        simp only [List.mem_flatMap, List.mem_map] at hr
        obtain ⟨p', _, c2, _, hr⟩ := hr
        rw [← hr]
        rfl
      · intro hk1
        rw [← hk] at hk1
        omega
    · rw [if_neg hlen] at hok
      injection hok with hout
      constructor
      · intro hk1
        rw [← hk] at hk1
        omega
      · intro _ r hr
        rw [← hout] at hr
        simp only [List.mem_map] at hr
        obtain ⟨p', _, hr⟩ := hr
        rw [← hr]
        rfl

/-- Witness for C7 (amended): a tree whose first (year, month) node has two
children — the walker descends and every returned tuple has length 3. -/
theorem find_catrefs_uniform_depth_witness :
    find_catrefs (.mk [(("2022".data),
        .mk [(("06".data), .mk [(("01".data), .mk []), (("02".data), .mk [])])])]) =
      .ok [[("2022".data), ("06".data), ("01".data)],
           [("2022".data), ("06".data), ("02".data)]] ∧
    (∀ r ∈ [[("2022".data), ("06".data), ("01".data)],
            [("2022".data), ("06".data), ("02".data)]], r.length = 3) :=
  ⟨by decide,
   (find_catrefs_uniform_depth (.mk [(("2022".data),
        .mk [(("06".data), .mk [(("01".data), .mk []), (("02".data), .mk [])])])])
      [[("2022".data), ("06".data), ("01".data)],
       [("2022".data), ("06".data), ("02".data)]] 2
      (by decide) (by decide)).1 (by decide)⟩

/-- Counterexample for C7 as stated: a tree whose first (year, month) node
has exactly one child — a third level exists (the probe sees it), yet the
walker does not descend and returns length-2 tuples. -/
theorem find_catrefs_single_child_counterexample :
    refNames (lookupRef (lookupRef
        (.mk [(("2022".data), .mk [(("06".data), .mk [(("01".data), CatNode.mk [])])])])
        ("2022".data)) ("06".data)) = [("01".data)] ∧
    find_catrefs (.mk [(("2022".data), .mk [(("06".data), .mk [(("01".data), CatNode.mk [])])])]) =
      .ok [[("2022".data), ("06".data)]] :=
  ⟨by decide, by decide⟩

/-- C9: behaviour of the freshness cache.  With no record the check returns
`False` without raising, whatever the key; immediately after a write it
returns `True` (for any key whose artifact kind resolves to a positive
time-to-live); and with a record present it returns `True` exactly when
`now - write_time < ttl`, hence `False` once the clock passes the
time-to-live. -/
theorem is_fresh_spec (tbl : FreshTable) (fs : CacheFS) (now t mu : Int)
    (dir : CacheDir) (name : Str) :
    (fs.mtime dir name = none → is_fresh tbl fs now dir name = .ok false) ∧
    (get_fresh_parameter tbl dir name = some mu → 0 < mu →
      is_fresh tbl (fs.write dir name now) now dir name = .ok true) ∧
    (fs.mtime dir name = some t → get_fresh_parameter tbl dir name = some mu →
      (is_fresh tbl fs now dir name = .ok true ↔ now - t < mu)) ∧
    (fs.mtime dir name = some t → get_fresh_parameter tbl dir name = some mu →
      mu ≤ now - t → is_fresh tbl fs now dir name = .ok false) := by
  refine ⟨?_, ?_, ?_, ?_⟩
  · intro hnone
    unfold is_fresh
    rw [hnone]
  · intro hg hmu
    unfold is_fresh
    have hw : (fs.write dir name now).mtime dir name = some now := by
      unfold CacheFS.write
      simp
    rw [hw, hg]
    simp only [Except.ok.injEq, decide_eq_true_eq]
    omega
  · intro ht hg
    unfold is_fresh
    rw [ht, hg]
    simp only [Except.ok.injEq, decide_eq_true_eq]
  · intro ht hg hle
    unfold is_fresh
    rw [ht, hg]
    have hnot : ¬ (now - t < mu) := by omega
    simp [hnot]

/-- Witness for C9: a concrete table (`forecast`/`start` entries live 100
hours), an empty filesystem, and a start-datetime key: fresh is `False`
before any write, `True` right after a write at time 50, and `False` again
at time 151 (past the time-to-live). -/
theorem is_fresh_spec_witness :
    is_fresh ⟨fun tm k => if tm = ("forecast".data) ∧ k = .start then some 100 else none, some 7⟩
        ⟨fun _ _ => none⟩ 50 .availability ("cbofs_forecast_start.yaml".data) = .ok false ∧
    is_fresh ⟨fun tm k => if tm = ("forecast".data) ∧ k = .start then some 100 else none, some 7⟩
        (CacheFS.write ⟨fun _ _ => none⟩ .availability ("cbofs_forecast_start.yaml".data) 50)
        50 .availability ("cbofs_forecast_start.yaml".data) = .ok true ∧
    is_fresh ⟨fun tm k => if tm = ("forecast".data) ∧ k = .start then some 100 else none, some 7⟩
        (CacheFS.write ⟨fun _ _ => none⟩ .availability ("cbofs_forecast_start.yaml".data) 50)
        151 .availability ("cbofs_forecast_start.yaml".data) = .ok false :=
  ⟨(is_fresh_spec ⟨fun tm k => if tm = ("forecast".data) ∧ k = .start then some 100 else none, some 7⟩
      ⟨fun _ _ => none⟩ 50 0 100 .availability ("cbofs_forecast_start.yaml".data)).1 rfl,
   (is_fresh_spec ⟨fun tm k => if tm = ("forecast".data) ∧ k = .start then some 100 else none, some 7⟩
      ⟨fun _ _ => none⟩ 50 0 100 .availability ("cbofs_forecast_start.yaml".data)).2.1
     (by decide) (by decide),
   (is_fresh_spec ⟨fun tm k => if tm = ("forecast".data) ∧ k = .start then some 100 else none, some 7⟩
      (CacheFS.write ⟨fun _ _ => none⟩ .availability ("cbofs_forecast_start.yaml".data) 50)
      151 50 100 .availability ("cbofs_forecast_start.yaml".data)).2.2.2
     (by decide) (by decide) (by decide)⟩

end MC

